import Mathlib

/-!
# Verification of the ChampSim log summarizer (champsim_e2e.py)

Shallow embedding of the log-to-record extraction engine of
`champsim_e2e.py`: the Python `re` patterns are embedded through a small
regex interpreter covering exactly the constructs the source uses
(literals, the character classes `\d`, `\s`, `\w`, `\S`, `[\d.]`,
quantifiers on single-character classes, alternation, optional groups,
capture groups, and `^` under `re.MULTILINE`), with Python's leftmost /
greedy / left-alternative-first backtracking preference order.

Python floats are modelled as rationals (the numeric texts in the logs are
short decimal literals, exactly representable; `float` values that are
NaN/infinite are mapped to `none` exactly where the source's `safe_float`
maps them to `None`).  The geometric mean, which uses `math.exp`/`math.log`,
is modelled over the reals.
-/

set_option maxRecDepth 10000

-- Mathlib marks the core rational operations irreducible; restore default
-- transparency so that concrete runs of the embedding can be evaluated by
-- `decide` (the kernel ignores reducibility attributes either way).
attribute [local semireducible] Rat.mul Rat.add Rat.inv Rat.sub Rat.ofScientific

/-! ## Regex interpreter -/

/-- Python `\s` (the whitespace characters occurring in ASCII log text). -/
def isSpaceCh (c : Char) : Bool :=
  c == ' ' || c == '\t' || c == '\n' || c == '\r' || c == '\x0b' || c == '\x0c'

/-- The character classes used by the source's patterns. -/
inductive CC where
  | digit | space | word | nonspace | digitDot
deriving DecidableEq

def CC.mem : CC → Char → Bool
  | .digit, c => c.isDigit
  | .space, c => isSpaceCh c
  | .word, c => c.isAlphanum || c == '_'
  | .nonspace, c => !(isSpaceCh c)
  | .digitDot, c => c.isDigit || c == '.'

/-- Regex abstract syntax: exactly the constructs used by the source's
patterns (there, quantifiers occur only on single-character classes). -/
inductive RE where
  | eps
  | lit (l : List Char)
  | one (cc : CC)
  | many1 (cc : CC)
  | many (cc : CC)
  | alt (a b : RE)
  | seq (a b : RE)
  | opt (a : RE)
  | grp (i : Nat) (a : RE)
  | bol
deriving DecidableEq

/-- Capture list: (group index, start position, end position). -/
abbrev Caps := List (Nat × Nat × Nat)

/-- Does the second list occur literally at the head of the first. -/
def matchLit : List Char → List Char → Bool
  | _, [] => true
  | [], _ :: _ => false
  | c :: cs, d :: ds => d == c && matchLit cs ds

/-- Length of the maximal run of members of `cc` at the head of the list. -/
def maxRun (cc : CC) : List Char → Nat
  | [] => 0
  | c :: cs => if cc.mem c then maxRun cc cs + 1 else 0

/-- Start-of-line test: Python `^` under `re.MULTILINE` (the only way `^`
is used in the source). -/
def bolAt (t : List Char) (pos : Nat) : Bool :=
  pos == 0 || t.get? (pos - 1) == some '\n'

/-- All ways a regex can match at position `pos` of `t`, as
(end position, captures), in Python's backtracking preference order
(greedy quantifiers longest first, left alternative first). -/
def results (t : List Char) : RE → Nat → List (Nat × Caps)
  | .eps, pos => [(pos, [])]
  | .lit l, pos => if matchLit (t.drop pos) l then [(pos + l.length, [])] else []
  | .one cc, pos =>
      match t.get? pos with
      | some c => if cc.mem c then [(pos + 1, [])] else []
      | none => []
  | .many1 cc, pos =>
      let r := maxRun cc (t.drop pos)
      (List.range r).map (fun i => (pos + r - i, []))
  | .many cc, pos =>
      let r := maxRun cc (t.drop pos)
      (List.range (r + 1)).map (fun i => (pos + r - i, []))
  | .alt a b, pos => results t a pos ++ results t b pos
  | .seq a b, pos =>
      (results t a pos).flatMap
        (fun pc => (results t b pc.1).map (fun qc => (qc.1, pc.2 ++ qc.2)))
  | .opt a, pos => results t a pos ++ [(pos, [])]
  | .grp i a, pos => (results t a pos).map (fun pc => (pc.1, (i, pos, pc.1) :: pc.2))
  | .bol, pos => if bolAt t pos then [(pos, [])] else []

/-- A regex match: span plus captures. -/
structure Mtch where
  s : Nat
  e : Nat
  caps : Caps
deriving DecidableEq

/-- Leftmost match starting at or after `start` (Python `re.search`). -/
def searchFrom (re : RE) (t : List Char) (start : Nat) : Option Mtch :=
  (List.range (t.length + 1 - start)).findSome?
    (fun i =>
      match results t re (start + i) with
      | [] => none
      | (e, c) :: _ => some ⟨start + i, e, c⟩)

/-- Python `re.search`: leftmost match anywhere in the text. -/
def search (re : RE) (t : List Char) : Option Mtch := searchFrom re t 0

def finditerAux (re : RE) (t : List Char) : Nat → Nat → List Mtch
  | 0, _ => []
  | fuel + 1, pos =>
      match searchFrom re t pos with
      | none => []
      | some m => m :: finditerAux re t fuel (if m.s < m.e then m.e else m.e + 1)

/-- Python `re.finditer`: non-overlapping matches, left to right.  The fuel
`t.length + 2` suffices: each step strictly advances the scan position. -/
def finditer (re : RE) (t : List Char) : List Mtch :=
  finditerAux re t (t.length + 2) 0

/-- Text of capture group `i` of a match (`none` when the group did not
participate in the match, like Python's `m.group(i) is None`). -/
def groupStr (t : List Char) (m : Mtch) (i : Nat) : Option (List Char) :=
  (m.caps.find? (fun c => c.1 == i)).map
    (fun c => (t.drop c.2.1).take (c.2.2 - c.2.1))

/-! ## Numeric conversions (Python `int` / `float` on captured text) -/

/-- Python `int` on a string of decimal digits (every `int(...)` call in the
source is applied to a `\d+` capture, hence to a pure digit string). -/
def digitsVal (l : List Char) : ℕ :=
  l.foldl (fun a c => 10 * a + (c.toNat - 48)) 0

/-- Helper for `pyFloat`: unsigned float literal `digits [. digits] [e…]`.
Rejects anything else (Python raises ValueError there). -/
def pyFloatCore (s : List Char) : Option ℚ :=
  let mant := s.takeWhile (fun c => !(c == 'e' || c == 'E'))
  let rest := s.dropWhile (fun c => !(c == 'e' || c == 'E'))
  let expVal : Option ℤ :=
    match rest with
    | [] => some 0
    | _ :: es =>
      match es with
      | '-' :: ds =>
          if ds ≠ [] ∧ ds.all (·.isDigit) then some (-(digitsVal ds : ℤ)) else none
      | '+' :: ds =>
          if ds ≠ [] ∧ ds.all (·.isDigit) then some ((digitsVal ds : ℤ)) else none
      | ds =>
          if ds ≠ [] ∧ ds.all (·.isDigit) then some ((digitsVal ds : ℤ)) else none
  let mantVal : Option ℚ :=
    let ip := mant.takeWhile (fun c => !(c == '.'))
    let dotfrac := mant.dropWhile (fun c => !(c == '.'))
    match dotfrac with
    | [] => if ip ≠ [] ∧ ip.all (·.isDigit) then some ((digitsVal ip : ℚ)) else none
    | _ :: frac =>
        if ip.all (·.isDigit) ∧ frac.all (·.isDigit) ∧ (ip ≠ [] ∨ frac ≠ []) then
          some ((digitsVal ip : ℚ) + (digitsVal frac : ℚ) / ((10 : ℚ) ^ frac.length))
        else none
  match mantVal, expVal with
  | some mv, some ev => some (mv * (10 : ℚ) ^ ev)
  | _, _ => none

/-- Model of Python `float(s)` on the capture texts arising here, as an exact
rational; `none` models a ValueError.  (The texts reaching `float` in the
source are captures of `[\d.]+` or `[\S]+`; `nan`/`inf` literals, which
`float` would accept but the source's `safe_float` immediately turns into
`None`, are also mapped to `none`.) -/
def pyFloat (s : List Char) : Option ℚ :=
  match s with
  | '-' :: r => (pyFloatCore r).map Neg.neg
  | '+' :: r => pyFloatCore r
  | _ => pyFloatCore s

/-- Source `safe_float`: parse float, `None` for NaN/inf/unparseable.  With
floats modelled as rationals this is exactly `pyFloat` (see its docstring). -/
def safe_float (s : List Char) : Option ℚ := pyFloat s

/-- Source `_getint`: safely extract an integer group from a match object
(`None` when there is no match, the group index is invalid, or the group did
not participate). -/
def _getint (t : List Char) (m : Option Mtch) (g : Nat) : Option ℕ :=
  match m with
  | none => none
  | some m => (groupStr t m g).map digitsVal

/-- Source `_getfloat`: safely extract a `safe_float` group from a match. -/
def _getfloat (t : List Char) (m : Option Mtch) (g : Nat) : Option ℚ :=
  match m with
  | none => none
  | some m => (groupStr t m g).bind safe_float

/-- Python `sep.join(lst)`. -/
def pyJoin (sep : String) : List String → String
  | [] => ""
  | [x] => x
  | x :: xs => x ++ sep ++ pyJoin sep xs

/-! ## Patterns of the source (format/mode detection, ROI, field groups) -/

def rcat : List RE → RE := fun l => l.foldr RE.seq RE.eps
def rlit (s : String) : RE := RE.lit s.data
def sp1 : RE := RE.many1 .space
def sp0 : RE := RE.many .space
def dig1 : RE := RE.many1 .digit
def digdot1 : RE := RE.many1 .digitDot
def nsp1 : RE := RE.many1 .nonspace
def wrd1 : RE := RE.many1 .word

/-- `_WP_SIG = ^(?:cpu0_\w+|LLC) WRONG-PATH\s+ACCESS:` (re.MULTILINE). -/
def _WP_SIG : RE := rcat
  [RE.bol, RE.alt (RE.seq (rlit "cpu0_") wrd1) (rlit "LLC"),
   rlit " WRONG-PATH", sp1, rlit "ACCESS:"]

/-- `_NORM_SIG = cpu0->cpu0_` (unanchored). -/
def _NORM_SIG : RE := rlit "cpu0->cpu0_"

/-- `_WP_MODE = Wrong path enabled`. -/
def _WP_MODE : RE := rlit "Wrong path enabled"

/-- `ROI_RE`: the cumulative-IPC summary line, with optional wp_cycles. -/
def ROI_RE : RE := rcat
  [rlit "CPU", sp1, dig1, sp1, rlit "cumulative IPC:", sp0, RE.grp 1 digdot1,
   sp1, rlit "instructions:", sp0, RE.grp 2 dig1,
   sp1, rlit "cycles:", sp0, RE.grp 3 dig1,
   RE.opt (rcat [sp1, rlit "wp_cycles:", sp0, RE.grp 4 dig1])]

def BR_RE : RE := rcat
  [rlit "Branch Prediction Accuracy:", sp0, RE.grp 1 digdot1, rlit "%", sp0,
   rlit "MPKI:", sp0, RE.grp 2 digdot1]

def BR_DJ_RE : RE := rcat [rlit "BRANCH_DIRECT_JUMP:", sp0, RE.grp 1 digdot1]
def BR_I_RE : RE := rcat [rlit "BRANCH_INDIRECT:", sp0, RE.grp 1 digdot1]
def BR_C_RE : RE := rcat [rlit "BRANCH_CONDITIONAL:", sp0, RE.grp 1 digdot1]
def BR_DC_RE : RE := rcat [rlit "BRANCH_DIRECT_CALL:", sp0, RE.grp 1 digdot1]
def BR_IC_RE : RE := rcat [rlit "BRANCH_INDIRECT_CALL:", sp0, RE.grp 1 digdot1]
def BR_R_RE : RE := rcat [rlit "BRANCH_RETURN:", sp0, RE.grp 1 digdot1]

def WP_INSTS_RE : RE := rcat
  [rlit "wrong_path_insts:", sp0, RE.grp 1 dig1,
   sp1, rlit "wrong_path_insts_skipped:", sp0, RE.grp 2 dig1,
   sp1, rlit "wrong_path_insts_executed:", sp0, RE.grp 3 dig1]

def FOOTPRINT_RE : RE := rcat
  [rlit "instr_foot_print:", sp0, RE.grp 1 dig1,
   sp1, rlit "data_foot_print:", sp0, RE.grp 2 dig1]

def ISPF_RE : RE := rcat
  [rlit "is_prefetch_insts:", sp0, RE.grp 1 dig1,
   sp1, rlit "is_prefetch_skipped:", sp0, RE.grp 2 dig1]

def EXEC_WP_CYC_RE : RE := rcat [rlit "Execute Only WP Cycles", sp1, RE.grp 1 dig1]
def EXEC_CP_CYC_RE : RE := rcat [rlit "Execute Only CP Cycles", sp1, RE.grp 1 dig1]
def EXEC_CPWP_RE : RE := rcat [rlit "Execute CP WP Cycles", sp1, RE.grp 1 dig1]
def ROB_FULL_CYC_RE : RE := rcat [rlit "ROB Full Cycles", sp1, RE.grp 1 dig1]
def ROB_EMPTY_CYC_RE : RE := rcat [rlit "ROB Empty Cycles", sp1, RE.grp 1 dig1]
def ROB_FULL_EVT_RE : RE := rcat [rlit "ROB Full Events", sp1, RE.grp 1 dig1]
def ROB_EMPTY_EVT_RE : RE := rcat [rlit "ROB Empty Events", sp1, RE.grp 1 dig1]
def RESTEER_EVT_RE : RE := rcat [rlit "Resteer Events", sp1, RE.grp 1 dig1]
def RESTEER_PCT_RE : RE := rcat [rlit "Resteer Penalty", sp1, RE.grp 1 digdot1, rlit "%"]

def WP_NA_PCT_RE : RE := rcat
  [rlit "WP Not Available Count", sp1, dig1, sp1, rlit "Cycles", sp1, dig1,
   sp1, rlit "(", RE.grp 1 digdot1, rlit "%)"]

def DRAM_RE : RE := rcat
  [rlit "Channel 0 RQ ROW_BUFFER_HIT:", sp0, RE.grp 1 dig1,
   sp1, rlit "ROW_BUFFER_MISS:", sp0, RE.grp 2 dig1]

/-! ## Column schema (SUMMARY_SPEC.md section 16) -/

/-- 29 fields per cache level (l1d/l1i/l2c/llc). -/
def _CACHE_FIELDS : List String :=
  ["load_access", "load_hit", "load_miss", "load_mpki",
   "pf_access", "pf_hit", "pf_miss",
   "pf_requested", "pf_issued", "pf_useful", "pf_useless",
   "wp_access", "wp_useful", "wp_fill", "wp_useless",
   "pollution", "pol_wp_fill", "pol_wp_miss", "pol_cp_fill", "pol_cp_miss",
   "data_req", "data_hit", "data_miss", "data_wp_req", "data_wp_hit", "data_wp_miss",
   "miss_lat", "wp_miss_lat", "cp_miss_lat"]

/-- 10 fields per TLB (dtlb/itlb/stlb). -/
def _TLB_FIELDS : List String :=
  ["access", "hit", "miss", "mpki",
   "wp_access", "wp_useful", "wp_useless",
   "miss_lat", "wp_miss_lat", "cp_miss_lat"]

/-- The fixed 183-column full schema. -/
def FULL_FIELDNAMES : List String :=
  (["bench", "config", "file", "log_format", "wp_mode", "parse_warnings"]
  ++ ["cycles", "inst", "ipc", "wp_cycles",
      "wp_insts_total", "wp_insts_skipped", "wp_insts_executed",
      "instr_footprint", "data_footprint", "is_prefetch_insts", "is_prefetch_skipped"]
  ++ ["branch_acc_percent", "branch_mpki",
      "br_direct_jump_mpki", "br_indirect_mpki", "br_conditional_mpki",
      "br_direct_call_mpki", "br_indirect_call_mpki", "br_return_mpki"]
  ++ ["exec_only_wp_cycles", "exec_only_cp_cycles", "exec_cp_wp_cycles",
      "rob_full_cycles", "rob_empty_cycles", "rob_full_events", "rob_empty_events",
      "resteer_events", "resteer_penalty_pct", "wp_not_avail_cycles_pct"]
  ++ (["l1d", "l1i", "l2c", "llc"].flatMap
        (fun lv => _CACHE_FIELDS.map (fun f => lv ++ "_" ++ f)))
  ++ (["dtlb", "itlb", "stlb"].flatMap
        (fun tlv => _TLB_FIELDS.map (fun f => tlv ++ "_" ++ f)))
  ++ ["dram_rq_row_hit", "dram_rq_row_miss"])

/-- The source asserts `len(FULL_FIELDNAMES) == 183` at import time. -/
theorem FULL_FIELDNAMES_length : FULL_FIELDNAMES.length = 183 := by decide

/-! ## Per-level prefix mapping and level parsers -/

inductive CacheLv where
  | l1d | l1i | l2c | llc
deriving DecidableEq

/-- Column prefix of a cache level (the `lv` string of the source). -/
def CacheLv.colName : CacheLv → String
  | .l1d => "l1d"
  | .l1i => "l1i"
  | .l2c => "l2c"
  | .llc => "llc"

inductive TlbLv where
  | dtlb | itlb | stlb
deriving DecidableEq

def TlbLv.colName : TlbLv → String
  | .dtlb => "dtlb"
  | .itlb => "itlb"
  | .stlb => "stlb"

/-- Source `_cache_prefix`: log line prefix for a cache level and format. -/
def _cache_pfx (lv : CacheLv) (fmt : String) : String :=
  if fmt == "normal" then
    match lv with
    | .l1d => "cpu0->cpu0_L1D"
    | .l1i => "cpu0->cpu0_L1I"
    | .l2c => "cpu0->cpu0_L2C"
    | .llc => "cpu0->LLC"
  else
    match lv with
    | .l1d => "cpu0_L1D"
    | .l1i => "cpu0_L1I"
    | .l2c => "cpu0_L2C"
    | .llc => "LLC"

/-- Source `_tlb_prefix`: log line prefix for a TLB level and format. -/
def _tlb_pfx (tlv : TlbLv) (fmt : String) : String :=
  if fmt == "normal" then
    match tlv with
    | .dtlb => "cpu0->cpu0_DTLB"
    | .itlb => "cpu0->cpu0_ITLB"
    | .stlb => "cpu0->cpu0_STLB"
  else
    match tlv with
    | .dtlb => "cpu0_DTLB"
    | .itlb => "cpu0_ITLB"
    | .stlb => "cpu0_STLB"

/-- The local `S(pat)` of the level parsers:
`re.search("^" + re.escape(pfx) + " " + pat, text, re.MULTILINE)`. -/
def prefixSearch (t : List Char) (pfx : String) (pat : RE) : Option Mtch :=
  search (RE.seq RE.bol (RE.seq (RE.lit pfx.data) (RE.seq (RE.lit " ".data) pat))) t

def CACHE_LOAD_PAT : RE := rcat
  [rlit "LOAD", sp1, rlit "ACCESS:", sp0, RE.grp 1 dig1,
   sp1, rlit "HIT:", sp0, RE.grp 2 dig1, sp1, rlit "MISS:", sp0, RE.grp 3 dig1]

def CACHE_PF_PAT : RE := rcat
  [rlit "PREFETCH", sp1, rlit "ACCESS:", sp0, RE.grp 1 dig1,
   sp1, rlit "HIT:", sp0, RE.grp 2 dig1, sp1, rlit "MISS:", sp0, RE.grp 3 dig1]

def CACHE_PFREQ_PAT : RE := rcat
  [rlit "PREFETCH REQUESTED:", sp0, RE.grp 1 dig1, sp1, rlit "ISSUED:", sp0, RE.grp 2 dig1,
   sp1, rlit "USEFUL:", sp0, RE.grp 3 dig1, sp1, rlit "USELESS:", sp0, RE.grp 4 dig1]

/-- `AVERAGE MISS LATENCY:\s*([\S]+) cycles` (normal format). -/
def LAT_NORMAL_PAT : RE := rcat
  [rlit "AVERAGE MISS LATENCY:", sp0, RE.grp 1 nsp1, rlit " cycles"]

/-- `AVERAGE DATA MISS LATENCY:\s*([\S]+) cycles` (wp_capable format). -/
def LAT_DATA_PAT : RE := rcat
  [rlit "AVERAGE DATA MISS LATENCY:", sp0, RE.grp 1 nsp1, rlit " cycles"]

def CACHE_WP_PAT : RE := rcat
  [rlit "WRONG-PATH ACCESS:", sp0, RE.grp 1 dig1, sp1, rlit "LOAD:", sp0, dig1,
   sp1, rlit "USEFULL:", sp0, RE.grp 2 dig1, sp1, rlit "FILL:", sp0, RE.grp 3 dig1,
   sp1, rlit "USELESS:", sp0, RE.grp 4 dig1]

def POLLUTION_PAT : RE := rcat
  [rlit "POLLUTION:", sp0, RE.grp 1 nsp1, sp1, rlit "WP_FILL:", sp0, RE.grp 2 dig1,
   sp1, rlit "WP_MISS:", sp0, RE.grp 3 dig1, sp1, rlit "CP_FILL:", sp0, RE.grp 4 dig1,
   sp1, rlit "CP_MISS:", sp0, RE.grp 5 dig1]

def DATAREQ_PAT : RE := rcat
  [rlit "DATA REQ:", sp0, RE.grp 1 dig1, sp1, rlit "HIT:", sp0, RE.grp 2 dig1,
   sp1, rlit "MISS:", sp0, RE.grp 3 dig1, sp1, rlit "WP_REQ:", sp0, RE.grp 4 dig1,
   sp1, rlit "WP_HIT:", sp0, RE.grp 5 dig1, sp1, rlit "WP_MISS:", sp0, RE.grp 6 dig1]

def WP_LAT_PAT : RE := rcat
  [rlit "AVERAGE WP DATA MISS LATENCY:", sp0, RE.grp 1 nsp1, rlit " cycles"]

def CP_LAT_PAT : RE := rcat
  [rlit "AVERAGE CP DATA MISS LATENCY:", sp0, RE.grp 1 nsp1, rlit " cycles"]

/-- TLB wrong-path line: FILL is matched but not captured. -/
def TLB_WP_PAT : RE := rcat
  [rlit "WRONG-PATH ACCESS:", sp0, RE.grp 1 dig1, sp1, rlit "LOAD:", sp0, dig1,
   sp1, rlit "USEFULL:", sp0, RE.grp 2 dig1, sp1, rlit "FILL:", sp0, dig1,
   sp1, rlit "USELESS:", sp0, RE.grp 3 dig1]

/-! ## Derived metrics -/

/-- Source `mpki_val`.  Both operands come from `\d+` captures, hence `ℕ`. -/
def mpki_val (miss inst : Option ℕ) : Option ℚ :=
  match miss, inst with
  | some m, some i => if i = 0 then none else some ((m : ℚ) * 1000 / (i : ℚ))
  | _, _ => none

/-- Source `geomean`'s filter `[v for v in lst if v and v > 0]`:
`None` and zero are falsy, non-positive values fail `v > 0`. -/
def geomeanVals (lst : List (Option ℚ)) : List ℚ :=
  lst.filterMap (fun o =>
    match o with
    | none => none
    | some v => if v = 0 then none else if 0 < v then some v else none)

/-- Source `geomean`: `exp(mean(log x))` over the kept values, `None` when
none remain.  `math.exp`/`math.log` are modelled over the reals. -/
noncomputable def geomean (lst : List (Option ℚ)) : Option ℝ :=
  let vals := geomeanVals lst
  if vals = [] then none
  else some (Real.exp (((vals.map (fun x => Real.log (x : ℝ))).sum) / (vals.length : ℝ)))

/-! ## Record cells -/

/-- A cell value of the output row (int / float / string). -/
inductive Value where
  | int (n : ℕ)
  | float (q : ℚ)
  | str (s : String)
deriving DecidableEq

abbrev Cell := Option Value

/-- Wrap an optional integer count as a cell. -/
def cellInt : Option ℕ → Cell
  | none => none
  | some n => some (.int n)

/-- Wrap an optional float as a cell. -/
def cellFloat : Option ℚ → Cell
  | none => none
  | some q => some (.float q)

/-! ## Per-level cache parser (29-field dict) -/

/-- Source `parse_cache_level`.  The source extracts the wp-capable-only
fields and then, when `wp_on` is false, overwrites the wrong-path-activity
subset with `None`; that extract-then-suppress is embedded per field as a
single conditional with the same result. -/
def parse_cache_level (t : List Char) (lv : CacheLv) (fmt_str : String)
    (wp_on : Bool) (inst : Option ℕ) : List (String × Cell) :=
  let pfx := _cache_pfx lv fmt_str
  let n := lv.colName
  let S := fun pat => prefixSearch t pfx pat
  let load_access := _getint t (S CACHE_LOAD_PAT) 1
  let load_hit := _getint t (S CACHE_LOAD_PAT) 2
  let load_miss := _getint t (S CACHE_LOAD_PAT) 3
  let pf_access := _getint t (S CACHE_PF_PAT) 1
  let pf_hit := _getint t (S CACHE_PF_PAT) 2
  let pf_miss := _getint t (S CACHE_PF_PAT) 3
  let pf_requested := _getint t (S CACHE_PFREQ_PAT) 1
  let pf_issued := _getint t (S CACHE_PFREQ_PAT) 2
  let pf_useful := _getint t (S CACHE_PFREQ_PAT) 3
  let pf_useless := _getint t (S CACHE_PFREQ_PAT) 4
  let miss_lat :=
    if fmt_str == "normal" then _getfloat t (S LAT_NORMAL_PAT) 1
    else _getfloat t (S LAT_DATA_PAT) 1
  let wpc := fmt_str == "wp_capable"
  -- wrong-path-activity tier: forced null unless wp_capable with WP on
  let wp_access := if wpc && wp_on then _getint t (S CACHE_WP_PAT) 1 else none
  let wp_useful := if wpc && wp_on then _getint t (S CACHE_WP_PAT) 2 else none
  let wp_fill := if wpc && wp_on then _getint t (S CACHE_WP_PAT) 3 else none
  let wp_useless := if wpc && wp_on then _getint t (S CACHE_WP_PAT) 4 else none
  let pollution := if wpc && wp_on then _getfloat t (S POLLUTION_PAT) 1 else none
  let pol_wp_fill := if wpc && wp_on then _getint t (S POLLUTION_PAT) 2 else none
  let pol_wp_miss := if wpc && wp_on then _getint t (S POLLUTION_PAT) 3 else none
  -- dialect-gated but not mode-gated
  let pol_cp_fill := if wpc then _getint t (S POLLUTION_PAT) 4 else none
  let pol_cp_miss := if wpc then _getint t (S POLLUTION_PAT) 5 else none
  let data_req := if wpc then _getint t (S DATAREQ_PAT) 1 else none
  let data_hit := if wpc then _getint t (S DATAREQ_PAT) 2 else none
  let data_miss := if wpc then _getint t (S DATAREQ_PAT) 3 else none
  let data_wp_req := if wpc && wp_on then _getint t (S DATAREQ_PAT) 4 else none
  let data_wp_hit := if wpc && wp_on then _getint t (S DATAREQ_PAT) 5 else none
  let data_wp_miss := if wpc && wp_on then _getint t (S DATAREQ_PAT) 6 else none
  let wp_miss_lat := if wpc then _getfloat t (S WP_LAT_PAT) 1 else none
  let cp_miss_lat := if wpc then _getfloat t (S CP_LAT_PAT) 1 else none
  [(n ++ "_load_access", cellInt load_access),
   (n ++ "_load_hit", cellInt load_hit),
   (n ++ "_load_miss", cellInt load_miss),
   (n ++ "_load_mpki", cellFloat (mpki_val load_miss inst)),
   (n ++ "_pf_access", cellInt pf_access),
   (n ++ "_pf_hit", cellInt pf_hit),
   (n ++ "_pf_miss", cellInt pf_miss),
   (n ++ "_pf_requested", cellInt pf_requested),
   (n ++ "_pf_issued", cellInt pf_issued),
   (n ++ "_pf_useful", cellInt pf_useful),
   (n ++ "_pf_useless", cellInt pf_useless),
   (n ++ "_wp_access", cellInt wp_access),
   (n ++ "_wp_useful", cellInt wp_useful),
   (n ++ "_wp_fill", cellInt wp_fill),
   (n ++ "_wp_useless", cellInt wp_useless),
   (n ++ "_pollution", cellFloat pollution),
   (n ++ "_pol_wp_fill", cellInt pol_wp_fill),
   (n ++ "_pol_wp_miss", cellInt pol_wp_miss),
   (n ++ "_pol_cp_fill", cellInt pol_cp_fill),
   (n ++ "_pol_cp_miss", cellInt pol_cp_miss),
   (n ++ "_data_req", cellInt data_req),
   (n ++ "_data_hit", cellInt data_hit),
   (n ++ "_data_miss", cellInt data_miss),
   (n ++ "_data_wp_req", cellInt data_wp_req),
   (n ++ "_data_wp_hit", cellInt data_wp_hit),
   (n ++ "_data_wp_miss", cellInt data_wp_miss),
   (n ++ "_miss_lat", cellFloat miss_lat),
   (n ++ "_wp_miss_lat", cellFloat wp_miss_lat),
   (n ++ "_cp_miss_lat", cellFloat cp_miss_lat)]

/-! ## Per-level TLB parser (10-field dict) -/

/-- Source `parse_tlb_level`, with the same per-field embedding of the
extract-then-suppress logic as `parse_cache_level`. -/
def parse_tlb_level (t : List Char) (tlv : TlbLv) (fmt_str : String)
    (wp_on : Bool) (inst : Option ℕ) : List (String × Cell) :=
  let pfx := _tlb_pfx tlv fmt_str
  let n := tlv.colName
  let S := fun pat => prefixSearch t pfx pat
  let access := _getint t (S CACHE_LOAD_PAT) 1
  let hit := _getint t (S CACHE_LOAD_PAT) 2
  let miss := _getint t (S CACHE_LOAD_PAT) 3
  let miss_lat :=
    if fmt_str == "normal" then _getfloat t (S LAT_NORMAL_PAT) 1
    else _getfloat t (S LAT_DATA_PAT) 1
  let wpc := fmt_str == "wp_capable"
  let wp_access := if wpc && wp_on then _getint t (S TLB_WP_PAT) 1 else none
  let wp_useful := if wpc && wp_on then _getint t (S TLB_WP_PAT) 2 else none
  let wp_useless := if wpc && wp_on then _getint t (S TLB_WP_PAT) 3 else none
  let wp_miss_lat := if wpc then _getfloat t (S WP_LAT_PAT) 1 else none
  let cp_miss_lat := if wpc then _getfloat t (S CP_LAT_PAT) 1 else none
  [(n ++ "_access", cellInt access),
   (n ++ "_hit", cellInt hit),
   (n ++ "_miss", cellInt miss),
   (n ++ "_mpki", cellFloat (mpki_val miss inst)),
   (n ++ "_wp_access", cellInt wp_access),
   (n ++ "_wp_useful", cellInt wp_useful),
   (n ++ "_wp_useless", cellInt wp_useless),
   (n ++ "_miss_lat", cellFloat miss_lat),
   (n ++ "_wp_miss_lat", cellFloat wp_miss_lat),
   (n ++ "_cp_miss_lat", cellFloat cp_miss_lat)]

/-! ## Core per-file parser -/

/-- Format detection of `parse_one_file` (source lines 487-492): the
wp_capable signature is tried first, then the normal one. -/
def detectFormat (t : List Char) : Option String :=
  if (search _WP_SIG t).isSome then some "wp_capable"
  else if (search _NORM_SIG t).isSome then some "normal"
  else none

/-- Source `last_roi`: the last ROI match (`for m in finditer: pass`). -/
def last_roi (t : List Char) : Option Mtch :=
  (finditer ROI_RE t).getLast?

/-- Outcome of `parse_one_file`: a row dict, a hard error (code, detail), or
an uncaught exception (`float(m_roi.group(1))` can raise ValueError, e.g. on
a capture like `1.2.3`; nothing catches it). -/
inductive ParseOutcome where
  | ok (rec : List (String × Cell))
  | err (code : String) (detail : String)
  | crash
deriving DecidableEq

/-- The row dict built by the success path of `parse_one_file`, given the
detected format, the last ROI match and the converted IPC. -/
def buildRec (t : List Char) (log_format : String) (m_roi : Mtch) (ipc : ℚ) :
    List (String × Cell) :=
  let wp_mode := if (search _WP_MODE t).isSome then "on" else "off"
  let wp_on := wp_mode == "on"
  let inst := (groupStr t m_roi 2).map digitsVal
  let cycles := (groupStr t m_roi 3).map digitsVal
  let wp_cycles := (groupStr t m_roi 4).map digitsVal
  let warnings :=
    if log_format == "wp_capable" && wp_cycles.isNone then ["missing_wp_cycles"] else []
  let wp_insts_total := _getint t (search WP_INSTS_RE t) 1
  let wp_insts_skipped := _getint t (search WP_INSTS_RE t) 2
  let wp_insts_executed := _getint t (search WP_INSTS_RE t) 3
  let instr_footprint := _getint t (search FOOTPRINT_RE t) 1
  let data_footprint := _getint t (search FOOTPRINT_RE t) 2
  let is_pf_insts := _getint t (search ISPF_RE t) 1
  let is_pf_skipped := _getint t (search ISPF_RE t) 2
  let branch_acc_percent := _getfloat t (search BR_RE t) 1
  let branch_mpki := _getfloat t (search BR_RE t) 2
  let br_direct_jump_mpki := _getfloat t (search BR_DJ_RE t) 1
  let br_indirect_mpki := _getfloat t (search BR_I_RE t) 1
  let br_conditional_mpki := _getfloat t (search BR_C_RE t) 1
  let br_direct_call_mpki := _getfloat t (search BR_DC_RE t) 1
  let br_indirect_call_mpki := _getfloat t (search BR_IC_RE t) 1
  let br_return_mpki := _getfloat t (search BR_R_RE t) 1
  -- G4 pipeline stats: only attempted for the wp_capable format
  let wpc := log_format == "wp_capable"
  let exec_only_wp_cycles := if wpc then _getint t (search EXEC_WP_CYC_RE t) 1 else none
  let exec_only_cp_cycles := if wpc then _getint t (search EXEC_CP_CYC_RE t) 1 else none
  let exec_cp_wp_cycles := if wpc then _getint t (search EXEC_CPWP_RE t) 1 else none
  let rob_full_cycles := if wpc then _getint t (search ROB_FULL_CYC_RE t) 1 else none
  let rob_empty_cycles := if wpc then _getint t (search ROB_EMPTY_CYC_RE t) 1 else none
  let rob_full_events := if wpc then _getint t (search ROB_FULL_EVT_RE t) 1 else none
  let rob_empty_events := if wpc then _getint t (search ROB_EMPTY_EVT_RE t) 1 else none
  let resteer_events := if wpc then _getint t (search RESTEER_EVT_RE t) 1 else none
  let resteer_penalty_pct := if wpc then _getfloat t (search RESTEER_PCT_RE t) 1 else none
  let wp_na_cycles_pct := if wpc then _getfloat t (search WP_NA_PCT_RE t) 1 else none
  let cache_rows :=
    [CacheLv.l1d, CacheLv.l1i, CacheLv.l2c, CacheLv.llc].flatMap
      (fun lv => parse_cache_level t lv log_format wp_on inst)
  let tlb_rows :=
    [TlbLv.dtlb, TlbLv.itlb, TlbLv.stlb].flatMap
      (fun tlv => parse_tlb_level t tlv log_format wp_on inst)
  let dram_rq_row_hit := _getint t (search DRAM_RE t) 1
  let dram_rq_row_miss := _getint t (search DRAM_RE t) 2
  ([("log_format", some (.str log_format)),
    ("wp_mode", some (.str wp_mode)),
    ("parse_warnings", some (.str (pyJoin "|" warnings))),
    ("cycles", cellInt cycles),
    ("inst", cellInt inst),
    ("ipc", some (.float ipc)),
    ("wp_cycles", cellInt wp_cycles),
    ("wp_insts_total", cellInt wp_insts_total),
    ("wp_insts_skipped", cellInt wp_insts_skipped),
    ("wp_insts_executed", cellInt wp_insts_executed),
    ("instr_footprint", cellInt instr_footprint),
    ("data_footprint", cellInt data_footprint),
    ("is_prefetch_insts", cellInt is_pf_insts),
    ("is_prefetch_skipped", cellInt is_pf_skipped),
    ("branch_acc_percent", cellFloat branch_acc_percent),
    ("branch_mpki", cellFloat branch_mpki),
    ("br_direct_jump_mpki", cellFloat br_direct_jump_mpki),
    ("br_indirect_mpki", cellFloat br_indirect_mpki),
    ("br_conditional_mpki", cellFloat br_conditional_mpki),
    ("br_direct_call_mpki", cellFloat br_direct_call_mpki),
    ("br_indirect_call_mpki", cellFloat br_indirect_call_mpki),
    ("br_return_mpki", cellFloat br_return_mpki),
    ("exec_only_wp_cycles", cellInt exec_only_wp_cycles),
    ("exec_only_cp_cycles", cellInt exec_only_cp_cycles),
    ("exec_cp_wp_cycles", cellInt exec_cp_wp_cycles),
    ("rob_full_cycles", cellInt rob_full_cycles),
    ("rob_empty_cycles", cellInt rob_empty_cycles),
    ("rob_full_events", cellInt rob_full_events),
    ("rob_empty_events", cellInt rob_empty_events),
    ("resteer_events", cellInt resteer_events),
    ("resteer_penalty_pct", cellFloat resteer_penalty_pct),
    ("wp_not_avail_cycles_pct", cellFloat wp_na_cycles_pct),
    ("dram_rq_row_hit", cellInt dram_rq_row_hit),
    ("dram_rq_row_miss", cellInt dram_rq_row_miss)]
   ++ cache_rows ++ tlb_rows)

/-- Source `parse_one_file` on the already-read text of the file at `path`
(I/O and the `unreadable_file` short-circuit are outside the model). -/
def parse_one_file (path : String) (t : List Char) : ParseOutcome :=
  match detectFormat t with
  | none => .err "unknown_format" ("No recognizable format signature in " ++ path)
  | some log_format =>
    match last_roi t with
    | none => .err "missing_roi" ("No ROI line in " ++ path)
    | some m_roi =>
      match (groupStr t m_roi 1).bind pyFloat with
      | none => .crash
      | some ipc => .ok (buildRec t log_format m_roi ipc)

/-- The row assembled by `main`: identifiers first, then the parsed dict. -/
def assembleRow (bench config file : String) (rec : List (String × Cell)) :
    List (String × Cell) :=
  ("bench", some (.str bench)) :: ("config", some (.str config))
    :: ("file", some (.str file)) :: rec

/-- A parse-error record (the 5-field error schema). -/
structure ERow where
  file : String
  bench : String
  config : String
  error_code : String
  detail : String
deriving DecidableEq

/-- One iteration of `main`'s per-file loop: on success append one assembled
row, on a hard error append exactly one error record; an uncaught exception
(crash) aborts the batch (`none`). -/
def step (path bench config file : String) (t : List Char)
    (acc : List (List (String × Cell)) × List ERow) :
    Option (List (List (String × Cell)) × List ERow) :=
  match parse_one_file path t with
  | .ok rec => some (acc.1 ++ [assembleRow bench config file rec], acc.2)
  | .err code detail => some (acc.1, acc.2 ++ [⟨file, bench, config, code, detail⟩])
  | .crash => none

/-! ## Normalization (main, lines 686-708) -/

/-- Projection of a parsed row used by the normalization pass. -/
structure NRec where
  bench : String
  config : String
  ipc : Option ℚ
deriving DecidableEq

/-- One output row of `normalized_ipc.csv`. -/
structure NRow where
  bench : String
  config : String
  ratio : Option ℚ
deriving DecidableEq

/-- Python dict assignment `d[k] = v`: first-insertion key order, value
overwritten in place. -/
def upsert (k : String) (v : β) : List (String × β) → List (String × β)
  | [] => [(k, v)]
  | (k', v') :: t => if k == k' then (k', v) :: t else (k', v') :: upsert k v t

/-- `bybench[r.bench][r.config] = r.ipc` (defaultdict-of-dict). -/
def upsert2 (b c : String) (v : Option ℚ) :
    List (String × List (String × Option ℚ)) → List (String × List (String × Option ℚ))
  | [] => [(b, [(c, v)])]
  | (b', d) :: t => if b == b' then (b', upsert c v d) :: t else (b', d) :: upsert2 b c v t

/-- The `bybench` map of `main`. -/
def bybench (recs : List NRec) : List (String × List (String × Option ℚ)) :=
  recs.foldl (fun acc r => upsert2 r.bench r.config r.ipc acc) []

/-- Python `d.get(k)`. -/
def lookupA (k : String) : List (String × β) → Option β
  | [] => none
  | (k', v) :: t => if k == k' then some v else lookupA k t

/-- Lexicographic comparison of character lists by code point — Python's
string `<=` on the label strings appearing here. -/
def charsLe : List Char → List Char → Bool
  | [], _ => true
  | _ :: _, [] => false
  | c :: cs, d :: ds => if c < d then true else if d < c then false else charsLe cs ds

/-- Python string `<=` (lexicographic by code point). -/
def strLe (a b : String) : Bool := charsLe a.data b.data

/-- `sorted(bybench.items())`: the benchmark keys are pairwise distinct, so
sorting the items by key models Python's `sorted` (which compares the key
first and never reaches the dict component here). -/
def sortedItems (l : List (String × List (String × Option ℚ))) :
    List (String × List (String × Option ℚ)) :=
  l.insertionSort (fun a b => strLe a.1 b.1 = true)

/-- The inner loop of the normalization pass for one benchmark `b` with
config-to-IPC dict `d`: skip silently unless the baseline IPC is present
and truthy and positive; otherwise one row per config, with
`norm = (val / base) if val else None`. -/
def contrib (baseline b : String) (d : List (String × Option ℚ)) : List NRow :=
  match lookupA baseline d with
  | none => []
  | some none => []
  | some (some base) =>
    if base = 0 then []          -- `not base` (falsy float)
    else if base ≤ 0 then []     -- `base <= 0`
    else d.map (fun p =>
      ⟨b, p.1,
        match p.2 with
        | none => none
        | some v => if v = 0 then none else some (v / base)⟩)

/-- The per-benchmark rows of `normalized_ipc.csv` (the first loop of the
normalization pass, before the geomean sentinel rows). -/
def perBenchRows (baseline : String) (recs : List NRec) : List NRow :=
  (sortedItems (bybench recs)).flatMap (fun p => contrib baseline p.1 p.2)

/-- The ratio lists collected per configuration (`ratios_by_cfg`): the
non-`None` ratios of non-baseline configurations, in emission order. -/
def ratiosByCfg (baseline : String) (recs : List NRec) : List (String × List ℚ) :=
  (perBenchRows baseline recs).foldl
    (fun acc row =>
      match row.ratio with
      | none => acc
      | some v => if row.config == baseline then acc
                  else match lookupA row.config acc with
                       | none => acc ++ [(row.config, [v])]
                       | some l => upsert row.config (l ++ [v]) acc)
    []

/-! ## Statement scaffolding and success-path inversion -/

/-- The row of a successful outcome (`[]` otherwise). -/
def okRec (o : ParseOutcome) : List (String × Cell) :=
  match o with
  | .ok r => r
  | _ => []

/-- Inversion of the success path of `parse_one_file`. -/
theorem parse_one_file_ok_inv (path : String) (t : List Char)
    (rec : List (String × Cell)) (h : parse_one_file path t = .ok rec) :
    ∃ lf m q, detectFormat t = some lf ∧ last_roi t = some m ∧
      (groupStr t m 1).bind pyFloat = some q ∧ rec = buildRec t lf m q := by
  unfold parse_one_file at h
  cases hd : detectFormat t with
  | none => simp only [hd] at h; exact ParseOutcome.noConfusion h
  | some lf =>
    simp only [hd] at h
    cases hr : last_roi t with
    | none => simp only [hr] at h; exact ParseOutcome.noConfusion h
    | some m =>
      simp only [hr] at h
      cases hq : (groupStr t m 1).bind pyFloat with
      | none => simp only [hq] at h; exact ParseOutcome.noConfusion h
      | some q =>
        simp only [hq] at h
        injection h with h2
        exact ⟨lf, m, q, rfl, rfl, hq, h2.symm⟩

/-- The detector returns `none`, `wp_capable` or `normal` — nothing else. -/
theorem detectFormat_cases (t : List Char) :
    detectFormat t = none ∨ detectFormat t = some "wp_capable" ∨
      detectFormat t = some "normal" := by
  unfold detectFormat
  by_cases h1 : (search _WP_SIG t).isSome
  · simp [h1]
  · by_cases h2 : (search _NORM_SIG t).isSome <;> simp [h1, h2]

/-- Key list of the dict returned by `parse_one_file`, in insertion order
(scalar groups and the DRAM pair first, then the cache and TLB blocks). -/
def REC_KEYS : List String :=
  (["log_format", "wp_mode", "parse_warnings", "cycles", "inst", "ipc", "wp_cycles",
    "wp_insts_total", "wp_insts_skipped", "wp_insts_executed", "instr_footprint",
    "data_footprint", "is_prefetch_insts", "is_prefetch_skipped",
    "branch_acc_percent", "branch_mpki", "br_direct_jump_mpki", "br_indirect_mpki",
    "br_conditional_mpki", "br_direct_call_mpki", "br_indirect_call_mpki",
    "br_return_mpki", "exec_only_wp_cycles", "exec_only_cp_cycles",
    "exec_cp_wp_cycles", "rob_full_cycles", "rob_empty_cycles", "rob_full_events",
    "rob_empty_events", "resteer_events", "resteer_penalty_pct",
    "wp_not_avail_cycles_pct", "dram_rq_row_hit", "dram_rq_row_miss"]
  ++ (["l1d", "l1i", "l2c", "llc"].flatMap
        (fun lv => _CACHE_FIELDS.map (fun f => lv ++ "_" ++ f)))
  ++ (["dtlb", "itlb", "stlb"].flatMap
        (fun tlv => _TLB_FIELDS.map (fun f => tlv ++ "_" ++ f))))

/-- The key list of the parsed dict does not depend on the text, the
detected format, the ROI match or any extracted value. -/
theorem buildRec_keys (t : List Char) (lf : String) (m : Mtch) (q : ℚ) :
    (buildRec t lf m q).map Prod.fst = REC_KEYS := rfl

/-- Keys of a fully assembled row. -/
theorem assembleRow_keys (b c f : String) (t : List Char) (lf : String)
    (m : Mtch) (q : ℚ) :
    (assembleRow b c f (buildRec t lf m q)).map Prod.fst =
      "bench" :: "config" :: "file" :: REC_KEYS := rfl

/-- Claim C1 — for every input log text that parses successfully (any
dialect, any mode), the assembled record carries exactly the fixed full
schema's set of field names: its key list is a permutation of
`FULL_FIELDNAMES`, independently of the dialect or mode. -/
theorem c1_schema_shape (path bench config file : String) (t : List Char)
    (rec : List (String × Cell)) (h : parse_one_file path t = .ok rec) :
    ((assembleRow bench config file rec).map Prod.fst).Perm FULL_FIELDNAMES := by
  obtain ⟨lf, m, q, _, _, _, hrec⟩ := parse_one_file_ok_inv path t rec h
  subst hrec
  rw [assembleRow_keys]
  decide

/-- A minimal normal-dialect log (one signature line, one ROI line). -/
def tC1 : List Char :=
  ("cpu0->cpu0_\nCPU 0 cumulative IPC: 1.0 instructions: 4 cycles: 4").data

/-- Witness for C1 at a concrete log text. -/
theorem c1_schema_shape_witness :
    parse_one_file "a.txt" tC1 = .ok (okRec (parse_one_file "a.txt" tC1)) ∧
    ((assembleRow "b" "c" "a.txt"
        (okRec (parse_one_file "a.txt" tC1))).map Prod.fst).Perm FULL_FIELDNAMES :=
  ⟨by decide, c1_schema_shape "a.txt" "b" "c" "a.txt" tC1 _ (by decide)⟩

/-- Claim C6 — `mpki_val` returns `miss * 1000 / inst` exactly when both
operands are present and `inst > 0`, and null otherwise; in particular
`mpki_val 12 1000000 = 0.012` and `mpki_val 5 0 = none`.  (It is a total
function — no input raises.) -/
theorem c6_mpki :
    (∀ m i : ℕ, mpki_val (some m) (some i) =
        if 0 < i then some ((m : ℚ) * 1000 / (i : ℚ)) else none) ∧
    (∀ o : Option ℕ, mpki_val none o = none) ∧
    (∀ o : Option ℕ, mpki_val o none = none) ∧
    mpki_val (some 12) (some 1000000) = some (0.012 : ℚ) ∧
    mpki_val (some 5) (some 0) = none := by
  refine ⟨fun m i => ?_, fun o => rfl, fun o => ?_, by decide, rfl⟩
  · rcases Nat.eq_zero_or_pos i with h | h
    · subst h; rfl
    · show (if i = 0 then none else some ((m : ℚ) * 1000 / (i : ℚ))) = _
      rw [if_neg (Nat.pos_iff_ne_zero.mp h), if_pos h]
  · cases o <;> rfl

/-! ## C10: the warning taxonomy of successful parses -/

/-- The `parse_warnings` cell of a parsed dict, as built on the success
path: the join of the singleton `missing_wp_cycles` list exactly when the
format is wp_capable and ROI group 4 is absent. -/
theorem buildRec_parse_warnings (t : List Char) (lf : String) (m : Mtch) (q : ℚ) :
    List.lookup "parse_warnings" (buildRec t lf m q) =
      some (some (.str (pyJoin "|"
        (if lf == "wp_capable" && ((groupStr t m 4).map digitsVal).isNone
         then ["missing_wp_cycles"] else [])))) := rfl

/-- The `log_format` cell of a parsed dict. -/
theorem buildRec_log_format (t : List Char) (lf : String) (m : Mtch) (q : ℚ) :
    List.lookup "log_format" (buildRec t lf m q) = some (some (.str lf)) := rfl

/-- Claim C10 — for every successfully parsed file the record's
`parse_warnings` string is either empty or exactly `missing_wp_cycles`;
it is `missing_wp_cycles` precisely when the dialect is wp_capable and the
ROI line's wrong-path-cycle capture group is absent; records of the normal
dialect always carry the empty warning string. -/
theorem c10_parse_warnings (path : String) (t : List Char)
    (rec : List (String × Cell)) (h : parse_one_file path t = .ok rec) :
    (List.lookup "parse_warnings" rec = some (some (.str "")) ∨
     List.lookup "parse_warnings" rec = some (some (.str "missing_wp_cycles"))) ∧
    (List.lookup "log_format" rec = some (some (.str "normal")) →
      List.lookup "parse_warnings" rec = some (some (.str ""))) ∧
    (List.lookup "parse_warnings" rec = some (some (.str "missing_wp_cycles")) ↔
      (List.lookup "log_format" rec = some (some (.str "wp_capable")) ∧
       ∃ m, last_roi t = some m ∧ groupStr t m 4 = none)) := by
  obtain ⟨lf, m, q, hd, hr, hq, hrec⟩ := parse_one_file_ok_inv path t rec h
  subst hrec
  rw [buildRec_parse_warnings, buildRec_log_format]
  cases hcond : (lf == "wp_capable" && ((groupStr t m 4).map digitsVal).isNone) with
  | true =>
    have hlf : lf = "wp_capable" := by
      have h2 := hcond
      simp only [Bool.and_eq_true, beq_iff_eq] at h2
      exact h2.1
    have hg4 : groupStr t m 4 = none := by
      have h2 := hcond
      simp only [Bool.and_eq_true, Option.isNone_iff_eq_none,
        Option.map_eq_none'] at h2
      exact h2.2
    subst hlf
    exact ⟨Or.inr rfl,
      fun hh =>
        absurd (Value.str.inj (Option.some.inj (Option.some.inj hh))) (by decide),
      fun _ => ⟨rfl, m, hr, hg4⟩,
      fun _ => rfl⟩
  | false =>
    refine ⟨Or.inl rfl, fun _ => rfl, ?_, ?_⟩
    · intro hh
      exact absurd (Value.str.inj (Option.some.inj (Option.some.inj hh))) (by decide)
    · rintro ⟨hlf, m2, hm2, hg4⟩
      have hlf' : lf = "wp_capable" :=
        Value.str.inj (Option.some.inj (Option.some.inj hlf))
      have hm : m2 = m := Option.some.inj (hm2.symm.trans hr)
      subst hlf'
      rw [hm] at hg4
      rw [hg4] at hcond
      exact absurd hcond (by decide)

/-- A wp_capable log whose ROI line lacks the wp_cycles figure. -/
def tC10 : List Char :=
  ("LLC WRONG-PATH ACCESS: 1 LOAD: 0 USEFULL: 0 FILL: 0 USELESS: 0\nCPU 0 cumulative IPC: 1.0 instructions: 4 cycles: 4").data

/-- Witness for C10: that log parses and gets warning `missing_wp_cycles`. -/
theorem c10_parse_warnings_witness :
    List.lookup "parse_warnings" (okRec (parse_one_file "w.txt" tC10)) =
        some (some (.str "")) ∨
    List.lookup "parse_warnings" (okRec (parse_one_file "w.txt" tC10)) =
        some (some (.str "missing_wp_cycles")) :=
  (c10_parse_warnings "w.txt" tC10 _ (by decide)).1

/-! ## C2: last-match semantics of the ROI anchor -/

/-- Claim C2 — ROI extraction uses last-match semantics: whenever the text
contains two or more ROI matches and parses successfully, the record's
`ipc`, `inst`, `cycles` and `wp_cycles` cells are computed from the last
ROI match of the text. -/
theorem c2_last_roi (path : String) (t : List Char) (rec : List (String × Cell))
    (m : Mtch) (_hlen : 2 ≤ (finditer ROI_RE t).length)
    (hlast : (finditer ROI_RE t).getLast? = some m)
    (h : parse_one_file path t = .ok rec) :
    List.lookup "ipc" rec = some (cellFloat ((groupStr t m 1).bind pyFloat)) ∧
    List.lookup "inst" rec = some (cellInt ((groupStr t m 2).map digitsVal)) ∧
    List.lookup "cycles" rec = some (cellInt ((groupStr t m 3).map digitsVal)) ∧
    List.lookup "wp_cycles" rec = some (cellInt ((groupStr t m 4).map digitsVal)) := by
  obtain ⟨lf, m', q, hd, hr, hq, hrec⟩ := parse_one_file_ok_inv path t rec h
  subst hrec
  have hm : m' = m := by
    have h2 : last_roi t = some m := hlast
    exact Option.some.inj (hr.symm.trans h2)
  subst hm
  refine ⟨?_, rfl, rfl, rfl⟩
  rw [show List.lookup "ipc" (buildRec t lf m' q) = some (some (.float q)) from rfl, hq]
  rfl

/-- A normal-dialect log with two ROI lines carrying different IPCs. -/
def tC2 : List Char :=
  ("cpu0->cpu0_\nCPU 0 cumulative IPC: 0.5 instructions: 8 cycles: 16\nCPU 0 cumulative IPC: 0.25 instructions: 8 cycles: 32").data

/-- The last ROI match of `tC2`. -/
def mC2 : Mtch := ((finditer ROI_RE tC2).getLast?).getD ⟨0, 0, []⟩

/-- Witness for C2: with ROI lines carrying 0.5 then 0.25, the extracted
ipc is the second line's 0.25. -/
theorem c2_last_roi_witness :
    2 ≤ (finditer ROI_RE tC2).length ∧
    List.lookup "ipc" (okRec (parse_one_file "b.txt" tC2)) =
      some (some (.float (0.25 : ℚ))) := by
  refine ⟨by decide, ?_⟩
  have h := (c2_last_roi "b.txt" tC2 (okRec (parse_one_file "b.txt" tC2)) mC2
    (by decide) (by decide) (by decide)).1
  rw [h]
  decide

/-! ## C3: detection order and the unknown_format hard error -/

/-- Claim C3 — the wp_capable signature is tested before the normal one,
so any text matching it is classified wp_capable even if it also contains
the normal signature; and a text matching neither signature makes
`parse_one_file` fail with exactly the `unknown_format` error, the batch
step appending exactly one error record and no parsed record. -/
theorem c3_detection_order (t : List Char) (path bench config file : String)
    (acc : List (List (String × Cell)) × List ERow) :
    ((search _WP_SIG t).isSome = true → detectFormat t = some "wp_capable") ∧
    ((search _WP_SIG t).isSome = false → (search _NORM_SIG t).isSome = false →
      parse_one_file path t =
        .err "unknown_format" ("No recognizable format signature in " ++ path) ∧
      step path bench config file t acc =
        some (acc.1, acc.2 ++ [⟨file, bench, config, "unknown_format",
          "No recognizable format signature in " ++ path⟩])) := by
  constructor
  · intro hw
    unfold detectFormat
    rw [hw]
    simp
  · intro hw hn
    have hd : detectFormat t = none := by
      unfold detectFormat
      rw [hw, hn]
      simp
    have hp : parse_one_file path t =
        .err "unknown_format" ("No recognizable format signature in " ++ path) := by
      unfold parse_one_file
      rw [hd]
    refine ⟨hp, ?_⟩
    unfold step
    rw [hp]

/-- A log containing both the wp_capable and the normal signature. -/
def tC3wp : List Char := ("cpu0->cpu0_L1D x\nLLC WRONG-PATH ACCESS: 1").data

/-- A text with no recognizable signature. -/
def tC3none : List Char := ("hello world").data

/-- Witness for C3: both signatures present classifies wp_capable; a
signatureless text yields exactly one unknown_format error record. -/
theorem c3_detection_order_witness :
    (search _WP_SIG tC3wp).isSome = true ∧
    (search _NORM_SIG tC3wp).isSome = true ∧
    detectFormat tC3wp = some "wp_capable" ∧
    step "p.txt" "b" "c" "f.txt" tC3none ([], []) =
      some ([], [⟨"f.txt", "b", "c", "unknown_format",
        "No recognizable format signature in p.txt"⟩]) := by
  refine ⟨by decide, by decide, ?_, ?_⟩
  · exact (c3_detection_order tC3wp "p.txt" "b" "c" "f.txt" ([], [])).1 (by decide)
  · exact ((c3_detection_order tC3none "p.txt" "b" "c" "f.txt"
      ([], [])).2 (by decide) (by decide)).2

/-! ## C4: mode-off suppression of wrong-path-activity fields -/

/-- Claim C4 — for a wp_capable log with mode off (`wp_on = false`, i.e.
the `Wrong path enabled` phrase is absent), every wrong-path-activity field
of every cache level (wp access/useful/fill/useless, pollution and its
wrong-path fill/miss components, wp-tagged data-request counts) and of
every TLB level (wp access/useful/useless) is null for every text — even
one containing matching lines with zero counters — while the
wrong-path-vs-correct-path miss-latency fields keep exactly the value the
extractor found (including null). -/
theorem c4_mode_off_suppression (t : List Char) (inst : Option ℕ) :
    (∀ lv : CacheLv,
      List.lookup (lv.colName ++ "_wp_access")
        (parse_cache_level t lv "wp_capable" false inst) = some none ∧
      List.lookup (lv.colName ++ "_wp_useful")
        (parse_cache_level t lv "wp_capable" false inst) = some none ∧
      List.lookup (lv.colName ++ "_wp_fill")
        (parse_cache_level t lv "wp_capable" false inst) = some none ∧
      List.lookup (lv.colName ++ "_wp_useless")
        (parse_cache_level t lv "wp_capable" false inst) = some none ∧
      List.lookup (lv.colName ++ "_pollution")
        (parse_cache_level t lv "wp_capable" false inst) = some none ∧
      List.lookup (lv.colName ++ "_pol_wp_fill")
        (parse_cache_level t lv "wp_capable" false inst) = some none ∧
      List.lookup (lv.colName ++ "_pol_wp_miss")
        (parse_cache_level t lv "wp_capable" false inst) = some none ∧
      List.lookup (lv.colName ++ "_data_wp_req")
        (parse_cache_level t lv "wp_capable" false inst) = some none ∧
      List.lookup (lv.colName ++ "_data_wp_hit")
        (parse_cache_level t lv "wp_capable" false inst) = some none ∧
      List.lookup (lv.colName ++ "_data_wp_miss")
        (parse_cache_level t lv "wp_capable" false inst) = some none ∧
      List.lookup (lv.colName ++ "_wp_miss_lat")
        (parse_cache_level t lv "wp_capable" false inst) =
          some (cellFloat (_getfloat t
            (prefixSearch t (_cache_pfx lv "wp_capable") WP_LAT_PAT) 1)) ∧
      List.lookup (lv.colName ++ "_cp_miss_lat")
        (parse_cache_level t lv "wp_capable" false inst) =
          some (cellFloat (_getfloat t
            (prefixSearch t (_cache_pfx lv "wp_capable") CP_LAT_PAT) 1))) ∧
    (∀ tlv : TlbLv,
      List.lookup (tlv.colName ++ "_wp_access")
        (parse_tlb_level t tlv "wp_capable" false inst) = some none ∧
      List.lookup (tlv.colName ++ "_wp_useful")
        (parse_tlb_level t tlv "wp_capable" false inst) = some none ∧
      List.lookup (tlv.colName ++ "_wp_useless")
        (parse_tlb_level t tlv "wp_capable" false inst) = some none ∧
      List.lookup (tlv.colName ++ "_wp_miss_lat")
        (parse_tlb_level t tlv "wp_capable" false inst) =
          some (cellFloat (_getfloat t
            (prefixSearch t (_tlb_pfx tlv "wp_capable") WP_LAT_PAT) 1)) ∧
      List.lookup (tlv.colName ++ "_cp_miss_lat")
        (parse_tlb_level t tlv "wp_capable" false inst) =
          some (cellFloat (_getfloat t
            (prefixSearch t (_tlb_pfx tlv "wp_capable") CP_LAT_PAT) 1))) := by
  constructor
  · intro lv
    cases lv <;>
      exact ⟨rfl, rfl, rfl, rfl, rfl, rfl, rfl, rfl, rfl, rfl, rfl, rfl⟩
  · intro tlv
    cases tlv <;> exact ⟨rfl, rfl, rfl, rfl, rfl⟩

/-! ## C5: line anchoring of the dialect signatures -/

/-- A literal pattern matches at the head of itself followed by anything. -/
theorem matchLit_append (l v : List Char) : matchLit (l ++ v) l = true := by
  induction l with
  | nil => cases v <;> rfl
  | cons c cs ih => simp [matchLit, ih]

/-- A regex starting with `^` has no match at a non-line-start position. -/
theorem results_seq_bol (t : List Char) (r : RE) (pos : Nat)
    (h : results t (RE.seq RE.bol r) pos ≠ []) : bolAt t pos = true := by
  by_contra hb
  apply h
  have hb' : bolAt t pos = false := by
    cases hx : bolAt t pos
    · rfl
    · exact absurd hx hb
  simp [results, hb']

/-- Any match `re.search` finds for a pattern of the shape `^…` starts at a
line start. -/
theorem search_bol_of_head (re r : RE) (hre : re = RE.seq RE.bol r)
    (t : List Char) (m : Mtch) (h : search re t = some m) :
    bolAt t m.s = true := by
  unfold search searchFrom at h
  obtain ⟨i, _, hf⟩ := List.exists_of_findSome?_eq_some h
  cases hres : results t re (0 + i) with
  | nil => rw [hres] at hf; exact Option.noConfusion hf
  | cons p rest =>
    rw [hres] at hf
    obtain ⟨e, c⟩ := p
    have hm : m = ⟨0 + i, e, c⟩ := (Option.some.inj hf).symm
    have hne : results t (RE.seq RE.bol r) (0 + i) ≠ [] := by
      rw [← hre, hres]; simp
    have hb := results_seq_bol t r (0 + i) hne
    rw [hm]
    exact hb

/-- Text whose sole occurrence of the normal signature is mid-line. -/
def tC5 : List Char := ("x cpu0->cpu0_L1D").data

/-- Claim C5 is false as stated: `tC5`'s only occurrence of the normal
signature `cpu0->cpu0_` is at position 2, which is not a line start, yet
the detector classifies the text as the normal dialect. -/
theorem c5_counterexample :
    matchLit (tC5.drop 2) ("cpu0->cpu0_".data) = true ∧
    bolAt tC5 2 = false ∧
    (∀ j < tC5.length + 1, j ≠ 2 →
      matchLit (tC5.drop j) ("cpu0->cpu0_".data) = false) ∧
    detectFormat tC5 = some "normal" := by
  refine ⟨by decide, by decide, ?_, by decide⟩
  decide

/-- Claim C5 (amended) — the wp_capable signature pattern matches only at
the start of a line, but the normal signature pattern is unanchored: the
substring `cpu0->cpu0_` is found at any position, including mid-line. -/
theorem c5_amended_anchoring :
    (∀ (t : List Char) (m : Mtch),
      search _WP_SIG t = some m → bolAt t m.s = true) ∧
    (∀ u v : List Char,
      (search _NORM_SIG (u ++ ("cpu0->cpu0_".data ++ v))).isSome = true) := by
  constructor
  · intro t m h
    exact search_bol_of_head _WP_SIG _ rfl t m h
  · intro u v
    by_contra hno
    have hnone : search _NORM_SIG (u ++ ("cpu0->cpu0_".data ++ v)) = none := by
      cases hx : search _NORM_SIG (u ++ ("cpu0->cpu0_".data ++ v))
      · rfl
      · rw [hx] at hno; exact absurd rfl hno
    unfold search searchFrom at hnone
    rw [List.findSome?_eq_none_iff] at hnone
    have hu : u.length ∈
        List.range ((u ++ ("cpu0->cpu0_".data ++ v)).length + 1 - 0) := by
      rw [List.mem_range]
      simp [List.length_append]
      omega
    have hval := hnone _ hu
    revert hval
    cases hres : results (u ++ ("cpu0->cpu0_".data ++ v)) _NORM_SIG (0 + u.length) with
    | nil =>
      intro _
      have hm : matchLit ((u ++ ("cpu0->cpu0_".data ++ v)).drop (0 + u.length))
          ("cpu0->cpu0_".data) = true := by
        rw [Nat.zero_add, List.drop_left]
        exact matchLit_append _ _
      simp only [show _NORM_SIG = RE.lit ("cpu0->cpu0_".data) from rfl,
        results] at hres
      rw [hm] at hres
      simp at hres
    | cons p rest =>
      intro hval
      obtain ⟨e, c⟩ := p
      exact Option.noConfusion hval

/-- A wp_capable signature line, at position 0. -/
def tC5wp : List Char := ("LLC WRONG-PATH ACCESS: 1").data

/-- The wp-signature match of `tC5wp`. -/
def mC5 : Mtch := (search _WP_SIG tC5wp).getD ⟨0, 0, []⟩

/-- Witness for the amended C5 at concrete texts. -/
theorem c5_amended_anchoring_witness :
    search _WP_SIG tC5wp = some mC5 ∧ bolAt tC5wp mC5.s = true ∧
    (search _NORM_SIG ("ab".data ++ ("cpu0->cpu0_".data ++ "cd".data))).isSome
      = true := by
  refine ⟨by decide, ?_, ?_⟩
  · exact (c5_amended_anchoring).1 tC5wp mC5 (by decide)
  · exact (c5_amended_anchoring).2 "ab".data "cd".data

/-! ## C9: the geometric-mean aggregation -/

/-- `geomean` only depends on the kept (truthy positive) values. -/
theorem geomean_congr (l₁ l₂ : List (Option ℚ))
    (h : geomeanVals l₁ = geomeanVals l₂) : geomean l₁ = geomean l₂ := by
  unfold geomean
  rw [h]

/-- A null entry is excluded from the filter. -/
theorem geomeanVals_cons_none (l : List (Option ℚ)) :
    geomeanVals (none :: l) = geomeanVals l := rfl

/-- A non-positive entry is excluded from the filter. -/
theorem geomeanVals_cons_nonpos (x : ℚ) (l : List (Option ℚ)) (hx : x ≤ 0) :
    geomeanVals (some x :: l) = geomeanVals l := by
  rcases eq_or_lt_of_le hx with h0 | hneg
  · subst h0
    rfl
  · have hn : (if x = 0 then (none : Option ℚ)
        else if 0 < x then some x else none) = none := by
      rw [if_neg hneg.ne, if_neg (not_lt.mpr hx)]
    unfold geomeanVals
    rw [List.filterMap_cons]
    simp only [hn]

/-- With no positive entry, nothing survives the filter. -/
theorem geomeanVals_eq_nil (l : List (Option ℚ))
    (h : ∀ v : ℚ, ¬(some v ∈ l ∧ 0 < v)) : geomeanVals l = [] := by
  induction l with
  | nil => rfl
  | cons a t ih =>
    have ht : ∀ v : ℚ, ¬(some v ∈ t ∧ 0 < v) := by
      intro v ⟨hm, hp⟩
      exact h v ⟨List.mem_cons_of_mem _ hm, hp⟩
    cases a with
    | none => rw [geomeanVals_cons_none]; exact ih ht
    | some x =>
      have hx : x ≤ 0 := by
        by_contra hgt
        exact h x ⟨List.mem_cons_self _ _, not_le.mp hgt⟩
      rw [geomeanVals_cons_nonpos x t hx]
      exact ih ht

/-- The exact value of the source's geomean on `[1.05, 0.95, 1.10]`: it lies
strictly between 1.0314 and 1.0315 (its cube is exactly 1.09725). -/
theorem geomean_c9_value :
    ∃ r : ℝ, geomean [some (1.05 : ℚ), some (0.95 : ℚ), some (1.1 : ℚ)] = some r ∧
      (1.0314 : ℝ) < r ∧ r < (1.0315 : ℝ) := by
  have hv : geomeanVals [some (1.05 : ℚ), some (0.95 : ℚ), some (1.1 : ℚ)] =
      [(1.05 : ℚ), (0.95 : ℚ), (1.1 : ℚ)] := by decide
  have hg : geomean [some (1.05 : ℚ), some (0.95 : ℚ), some (1.1 : ℚ)] =
      some (Real.exp ((Real.log (1.05 : ℝ) + Real.log (0.95 : ℝ) +
        Real.log (1.1 : ℝ)) / 3)) := by
    unfold geomean
    rw [hv]
    rw [if_neg (by simp)]
    norm_num [add_assoc]
  set s : ℝ := (Real.log (1.05 : ℝ) + Real.log (0.95 : ℝ) + Real.log (1.1 : ℝ)) / 3
    with hs
  have hr3 : Real.exp s ^ 3 = (1.09725 : ℝ) := by
    rw [← Real.exp_nat_mul]
    have h3 : ((3 : ℕ) : ℝ) * s = Real.log (1.05 : ℝ) + Real.log (0.95 : ℝ) +
        Real.log (1.1 : ℝ) := by
      rw [hs]; push_cast; ring
    rw [h3, Real.exp_add, Real.exp_add,
      Real.exp_log (by norm_num : (0:ℝ) < 1.05),
      Real.exp_log (by norm_num : (0:ℝ) < 0.95),
      Real.exp_log (by norm_num : (0:ℝ) < 1.1)]
    norm_num
  have hrpos : (0 : ℝ) < Real.exp s := Real.exp_pos s
  refine ⟨Real.exp s, hg, ?_, ?_⟩
  · have hc : (1.0314 : ℝ) ^ 3 < Real.exp s ^ 3 := by rw [hr3]; norm_num
    exact (pow_lt_pow_iff_left₀ (by norm_num) hrpos.le (by norm_num)).mp hc
  · have hc : Real.exp s ^ 3 < (1.0315 : ℝ) ^ 3 := by rw [hr3]; norm_num
    exact (pow_lt_pow_iff_left₀ hrpos.le (by norm_num) (by norm_num)).mp hc

/-- Claim C9 is false as stated: the geometric mean of [1.05, 0.95, 1.10]
is strictly below 1.0315 (it is about 1.0314), so it is not approximately
1.0321 at the four decimal places the claim states. -/
theorem c9_counterexample :
    ∃ r : ℝ, geomean [some (1.05 : ℚ), some (0.95 : ℚ), some (1.1 : ℚ)] = some r ∧
      r < (1.0315 : ℝ) ∧ (1.0315 : ℝ) < (1.0321 : ℝ) := by
  obtain ⟨r, hg, _, hub⟩ := geomean_c9_value
  exact ⟨r, hg, hub, by norm_num⟩

/-- Claim C9 (amended) — the geometric mean includes only the positive
entries (null, zero and negative entries are excluded, not errors and not
treated as 1.0), returns null when no positive entry remains, and over
[1.05, 0.95, 1.10] returns approximately 1.0314. -/
theorem c9_amended_geomean :
    (∀ l : List (Option ℚ), geomean (none :: l) = geomean l) ∧
    (∀ (l : List (Option ℚ)) (x : ℚ), x ≤ 0 →
      geomean (some x :: l) = geomean l) ∧
    (∀ l : List (Option ℚ), (∀ v : ℚ, ¬(some v ∈ l ∧ 0 < v)) →
      geomean l = none) ∧
    (∃ r : ℝ, geomean [some (1.05 : ℚ), some (0.95 : ℚ), some (1.1 : ℚ)] = some r ∧
      (1.0314 : ℝ) < r ∧ r < (1.0315 : ℝ)) := by
  refine ⟨?_, ?_, ?_, geomean_c9_value⟩
  · intro l
    exact geomean_congr _ _ (geomeanVals_cons_none l)
  · intro l x hx
    exact geomean_congr _ _ (geomeanVals_cons_nonpos x l hx)
  · intro l h
    unfold geomean
    rw [geomeanVals_eq_nil l h]
    rfl

/-- Witness for the amended C9 at concrete lists. -/
theorem c9_amended_geomean_witness :
    geomean [none, some (2 : ℚ)] = geomean [some (2 : ℚ)] ∧
    geomean [some (-1 : ℚ), some (2 : ℚ)] = geomean [some (2 : ℚ)] ∧
    geomean [some (-1 : ℚ), some (0 : ℚ), none] = none := by
  refine ⟨c9_amended_geomean.1 [some 2],
    c9_amended_geomean.2.1 [some 2] (-1) (by norm_num), ?_⟩
  refine c9_amended_geomean.2.2.1 [some (-1 : ℚ), some (0 : ℚ), none] ?_
  intro v ⟨hm, hp⟩
  simp only [List.mem_cons, List.not_mem_nil, or_false] at hm
  rcases hm with h1 | h2 | h3
  · rw [Option.some.inj h1] at hp
    exact absurd hp (by norm_num)
  · rw [Option.some.inj h2] at hp
    exact absurd hp (by norm_num)
  · exact Option.noConfusion h3

/-! ## Order lemmas for the key comparison used by `sorted(...)` -/

theorem charsLe_total : ∀ a b : List Char, charsLe a b = true ∨ charsLe b a = true
  | [], _ => Or.inl rfl
  | _ :: _, [] => Or.inr rfl
  | c :: cs, d :: ds => by
    rcases lt_trichotomy c d with h | h | h
    · left; simp [charsLe, h]
    · subst h
      rcases charsLe_total cs ds with ih | ih
      · left; simp [charsLe, lt_self_iff_false, ih]
      · right; simp [charsLe, lt_self_iff_false, ih]
    · right; simp [charsLe, h]

theorem charsLe_trans :
    ∀ a b c : List Char, charsLe a b = true → charsLe b c = true →
      charsLe a c = true
  | [], _, _, _, _ => rfl
  | x :: xs, [], _, h1, _ => by simp [charsLe] at h1
  | _ :: _, _ :: _, [], _, h2 => by simp [charsLe] at h2
  | x :: xs, y :: ys, z :: zs, h1, h2 => by
    simp only [charsLe] at h1 h2 ⊢
    rcases lt_trichotomy x y with hxy | hxy | hxy
    · rcases lt_trichotomy y z with hyz | hyz | hyz
      · rw [if_pos (lt_trans hxy hyz)]
      · subst hyz; rw [if_pos hxy]
      · rw [if_neg (lt_asymm hyz), if_pos hyz] at h2
        exact Bool.noConfusion h2
    · subst hxy
      rw [if_neg (lt_irrefl x), if_neg (lt_irrefl x)] at h1
      rcases lt_trichotomy x z with hxz | hxz | hxz
      · rw [if_pos hxz]
      · subst hxz
        rw [if_neg (lt_irrefl x), if_neg (lt_irrefl x)] at h2 ⊢
        exact charsLe_trans xs ys zs h1 h2
      · rw [if_neg (lt_asymm hxz), if_pos hxz] at h2
        exact Bool.noConfusion h2
    · rw [if_neg (lt_asymm hxy), if_pos hxy] at h1
      exact Bool.noConfusion h1

theorem charsLe_antisymm :
    ∀ a b : List Char, charsLe a b = true → charsLe b a = true → a = b
  | [], [], _, _ => rfl
  | [], _ :: _, _, h2 => by simp [charsLe] at h2
  | _ :: _, [], h1, _ => by simp [charsLe] at h1
  | x :: xs, y :: ys, h1, h2 => by
    simp only [charsLe] at h1 h2
    rcases lt_trichotomy x y with hxy | hxy | hxy
    · rw [if_neg (lt_asymm hxy), if_pos hxy] at h2
      exact Bool.noConfusion h2
    · subst hxy
      rw [if_neg (lt_irrefl x), if_neg (lt_irrefl x)] at h1 h2
      rw [charsLe_antisymm xs ys h1 h2]
    · rw [if_neg (lt_asymm hxy), if_pos hxy] at h1
      exact Bool.noConfusion h1

theorem strLe_total (a b : String) : strLe a b = true ∨ strLe b a = true :=
  charsLe_total a.data b.data

theorem strLe_trans (a b c : String) (h1 : strLe a b = true)
    (h2 : strLe b c = true) : strLe a c = true :=
  charsLe_trans a.data b.data c.data h1 h2

theorem strLe_antisymm (a b : String) (h1 : strLe a b = true)
    (h2 : strLe b a = true) : a = b :=
  String.ext (charsLe_antisymm a.data b.data h1 h2)

/-! ## Association-map lemmas for `bybench` -/

theorem upsert2_fst (bb c : String) (v : Option ℚ) :
    ∀ acc : List (String × List (String × Option ℚ)),
      (upsert2 bb c v acc).map Prod.fst =
        if bb ∈ acc.map Prod.fst then acc.map Prod.fst
        else acc.map Prod.fst ++ [bb]
  | [] => by simp [upsert2]
  | (b', d) :: t => by
    by_cases hb : bb = b'
    · subst hb
      simp [upsert2]
    · have hbeq : (bb == b') = false := beq_eq_false_iff_ne.mpr hb
      simp only [upsert2, hbeq, Bool.false_eq_true, if_false, List.map_cons,
        upsert2_fst bb c v t]
      by_cases hmem : bb ∈ t.map Prod.fst
      · rw [if_pos hmem, if_pos (List.mem_cons_of_mem _ hmem)]
      · rw [if_neg hmem, if_neg (by simp [hb, hmem]), List.cons_append]

theorem bybench_step_nodup (r : NRec)
    (acc : List (String × List (String × Option ℚ)))
    (h : (acc.map Prod.fst).Nodup) :
    ((upsert2 r.bench r.config r.ipc acc).map Prod.fst).Nodup := by
  rw [upsert2_fst]
  by_cases hmem : r.bench ∈ acc.map Prod.fst
  · rw [if_pos hmem]; exact h
  · rw [if_neg hmem]
    simp [List.nodup_append, h, hmem]

theorem bybench_fst_nodup (recs : List NRec) :
    ((bybench recs).map Prod.fst).Nodup := by
  suffices h : ∀ acc : List (String × List (String × Option ℚ)),
      (acc.map Prod.fst).Nodup →
      ((recs.foldl (fun acc r => upsert2 r.bench r.config r.ipc acc)
          acc).map Prod.fst).Nodup from h [] (by simp)
  induction recs with
  | nil => intro acc h; exact h
  | cons r rs ih => intro acc h; exact ih _ (bybench_step_nodup r acc h)

theorem lookupA_of_mem {β : Type} :
    ∀ {l : List (String × β)}, (l.map Prod.fst).Nodup →
      ∀ {k : String} {x : β}, (k, x) ∈ l → lookupA k l = some x
  | [], _, k, x, hmem => by simp at hmem
  | (k', y) :: t, hnd, k, x, hmem => by
    rcases List.mem_cons.mp hmem with he | ht
    · obtain ⟨h1, h2⟩ := Prod.ext_iff.mp he
      simp only at h1 h2
      subst h1; subst h2
      simp [lookupA]
    · have hk : k ≠ k' := by
        intro he2
        subst he2
        have hfst : k ∈ t.map Prod.fst := by
          have := List.mem_map_of_mem Prod.fst ht
          simpa using this
        have hnd2 : (k :: t.map Prod.fst).Nodup := by simpa using hnd
        exact (List.nodup_cons.mp hnd2).1 hfst
      have hnd2 : (t.map Prod.fst).Nodup := by
        have : (k' :: t.map Prod.fst).Nodup := by simpa using hnd
        exact (List.nodup_cons.mp this).2
      simp only [lookupA, beq_eq_false_iff_ne.mpr hk, Bool.false_eq_true, if_false]
      exact lookupA_of_mem hnd2 ht

theorem lookupA_mem {β : Type} :
    ∀ {l : List (String × β)} {k : String} {x : β},
      lookupA k l = some x → (k, x) ∈ l
  | [], k, x, h => by simp [lookupA] at h
  | (k', y) :: t, k, x, h => by
    by_cases hk : k = k'
    · subst hk
      simp only [lookupA, beq_self_eq_true, if_true] at h
      rw [← Option.some.inj h]
      exact List.mem_cons_self _ _
    · simp only [lookupA, beq_eq_false_iff_ne.mpr hk, Bool.false_eq_true,
        if_false] at h
      exact List.mem_cons_of_mem _ (lookupA_mem h)

/-! ## Lemmas about one benchmark's contribution -/

/-- Every row a benchmark group emits is tagged with that benchmark. -/
theorem contrib_bench (baseline k : String) (d : List (String × Option ℚ))
    (row : NRow) (h : row ∈ contrib baseline k d) : row.bench = k := by
  unfold contrib at h
  cases hl : lookupA baseline d with
  | none => rw [hl] at h; simp at h
  | some o =>
    rw [hl] at h
    cases o with
    | none => simp at h
    | some v =>
      simp only at h
      split_ifs at h with h1 h2
      · simp at h
      · simp at h
      · obtain ⟨p, _, hpe⟩ := List.mem_map.mp h
        rw [← hpe]

/-- A benchmark whose baseline IPC is absent, null or non-positive emits
nothing. -/
theorem contrib_eq_nil (baseline k : String) (d : List (String × Option ℚ))
    (h : ∀ v : ℚ, lookupA baseline d = some (some v) → ¬(0 < v)) :
    contrib baseline k d = [] := by
  unfold contrib
  cases hl : lookupA baseline d with
  | none => rfl
  | some o =>
    cases o with
    | none => rfl
    | some v =>
      simp only
      split_ifs with h1 h2
      · rfl
      · rfl
      · exact absurd (not_le.mp h2) (h v hl)

/-! ## Filtering a benchmark out of the `bybench` map -/

theorem upsert2_filter_ne (b rb c : String) (v : Option ℚ) (hrb : rb ≠ b) :
    ∀ acc : List (String × List (String × Option ℚ)),
      upsert2 rb c v (acc.filter (fun p => !(p.1 == b))) =
        (upsert2 rb c v acc).filter (fun p => !(p.1 == b))
  | [] => by
    simp [upsert2, beq_eq_false_iff_ne.mpr hrb]
  | (b', d) :: t => by
    by_cases hbb : b = b'
    · subst hbb
      have h2 : (rb == b) = false := beq_eq_false_iff_ne.mpr hrb
      simp only [List.filter_cons, beq_self_eq_true, Bool.not_true,
        Bool.false_eq_true, if_false, upsert2, h2]
      exact upsert2_filter_ne b rb c v hrb t
    · have hP : (!(b' == b)) = true := by
        simp [Ne.symm hbb]
      by_cases hrbb : rb = b'
      · subst hrbb
        simp [upsert2, List.filter_cons, hP]
      · have h3 : (rb == b') = false := beq_eq_false_iff_ne.mpr hrbb
        simp only [List.filter_cons, hP, if_true, upsert2, h3,
          Bool.false_eq_true, if_false]
        rw [upsert2_filter_ne b rb c v hrb t]

theorem upsert2_filter_self (b c : String) (v : Option ℚ) :
    ∀ acc : List (String × List (String × Option ℚ)),
      (upsert2 b c v acc).filter (fun p => !(p.1 == b)) =
        acc.filter (fun p => !(p.1 == b))
  | [] => by simp [upsert2]
  | (b', d) :: t => by
    by_cases hbb : b = b'
    · subst hbb
      simp [upsert2, List.filter_cons]
    · have h3 : (b == b') = false := beq_eq_false_iff_ne.mpr hbb
      have hP : (!(b' == b)) = true := by
        simp [Ne.symm hbb]
      simp only [upsert2, h3, Bool.false_eq_true, if_false, List.filter_cons,
        hP, if_true]
      rw [upsert2_filter_self b c v t]

/-- Removing one benchmark's records from the input removes exactly that
benchmark's entry from the `bybench` map. -/
theorem bybench_filter (b : String) (recs : List NRec) :
    bybench (recs.filter (fun r => !(r.bench == b))) =
      (bybench recs).filter (fun p => !(p.1 == b)) := by
  suffices h : ∀ (rs : List NRec) (acc : List (String × List (String × Option ℚ))),
      ((rs.filter (fun r => !(r.bench == b))).foldl
          (fun acc r => upsert2 r.bench r.config r.ipc acc)
          (acc.filter (fun p => !(p.1 == b)))) =
        (rs.foldl (fun acc r => upsert2 r.bench r.config r.ipc acc) acc).filter
          (fun p => !(p.1 == b)) from h recs []
  intro rs
  induction rs with
  | nil => intro acc; rfl
  | cons r rs ih =>
    intro acc
    by_cases hq : r.bench = b
    · have hf : (!(r.bench == b)) = false := by simp [hq]
      simp only [List.filter_cons, hf, Bool.false_eq_true, if_false,
        List.foldl_cons]
      have he2 := upsert2_filter_self b r.config r.ipc acc
      rw [hq] at *
      rw [← he2]
      exact ih (upsert2 b r.config r.ipc acc)
    · have hf : (!(r.bench == b)) = true := by simp [hq]
      simp only [List.filter_cons, hf, if_true, List.foldl_cons]
      rw [upsert2_filter_ne b r.bench r.config r.ipc hq acc]
      exact ih _

/-! ## Sorting the benchmark items commutes with excluding one benchmark -/

theorem sortedItems_filter (b : String)
    (l : List (String × List (String × Option ℚ)))
    (hnd : (l.map Prod.fst).Nodup) :
    sortedItems (l.filter (fun p => !(p.1 == b))) =
      (sortedItems l).filter (fun p => !(p.1 == b)) := by
  haveI : IsTotal (String × List (String × Option ℚ))
      (fun a b => strLe a.1 b.1 = true) := ⟨fun x y => strLe_total x.1 y.1⟩
  haveI : IsTrans (String × List (String × Option ℚ))
      (fun a b => strLe a.1 b.1 = true) :=
    ⟨fun x y z h1 h2 => strLe_trans x.1 y.1 z.1 h1 h2⟩
  haveI : IsAntisymm (String × List (String × Option ℚ))
      (fun a b => strLe a.1 b.1 = true ∧ a.1 ≠ b.1) := ⟨by
    rintro x y ⟨h1, hne⟩ ⟨h2, _⟩
    exact absurd (strLe_antisymm x.1 y.1 h1 h2) hne⟩
  have hndf : ((l.filter (fun p => !(p.1 == b))).map Prod.fst).Nodup :=
    hnd.sublist ((l.filter_sublist).map Prod.fst)
  have hnds : ((sortedItems l).map Prod.fst).Nodup :=
    ((List.perm_insertionSort _ l).map Prod.fst).nodup_iff.mpr hnd
  have hnds1 :
      ((sortedItems (l.filter (fun p => !(p.1 == b)))).map Prod.fst).Nodup :=
    ((List.perm_insertionSort _ _).map Prod.fst).nodup_iff.mpr hndf
  have hs1 : (sortedItems (l.filter (fun p => !(p.1 == b)))).Pairwise
      (fun a b => strLe a.1 b.1 = true ∧ a.1 ≠ b.1) :=
    (List.sorted_insertionSort _ _).and (List.pairwise_map.mp hnds1)
  have hs2 : ((sortedItems l).filter (fun p => !(p.1 == b))).Pairwise
      (fun a b => strLe a.1 b.1 = true ∧ a.1 ≠ b.1) :=
    List.Pairwise.sublist (List.filter_sublist _)
      ((List.sorted_insertionSort _ l).and (List.pairwise_map.mp hnds))
  have hperm : (sortedItems (l.filter (fun p => !(p.1 == b)))).Perm
      ((sortedItems l).filter (fun p => !(p.1 == b))) :=
    (List.perm_insertionSort _ _).trans
      ((List.Perm.filter _ (List.perm_insertionSort _ l)).symm)
  exact List.eq_of_perm_of_sorted hperm hs1 hs2

/-! ## Assembling the per-benchmark rows -/

theorem flatMap_filter_contrib (baseline b : String) :
    ∀ L : List (String × List (String × Option ℚ)),
      (∀ p ∈ L, p.1 = b → contrib baseline p.1 p.2 = []) →
      (L.filter (fun p => !(p.1 == b))).flatMap
          (fun p => contrib baseline p.1 p.2) =
        L.flatMap (fun p => contrib baseline p.1 p.2)
  | [], _ => rfl
  | p :: t, h => by
    have ht : ∀ q ∈ t, q.1 = b → contrib baseline q.1 q.2 = [] :=
      fun q hq => h q (List.mem_cons_of_mem _ hq)
    by_cases hpb : p.1 = b
    · have hf : (!(p.1 == b)) = false := by simp [hpb]
      simp only [List.filter_cons, hf, Bool.false_eq_true, if_false,
        List.flatMap_cons, h p (List.mem_cons_self _ _) hpb, List.nil_append]
      exact flatMap_filter_contrib baseline b t ht
    · have hf : (!(p.1 == b)) = true := by simp [hpb]
      simp only [List.filter_cons, hf, if_true, List.flatMap_cons]
      rw [flatMap_filter_contrib baseline b t ht]

theorem flatMap_contrib_bench_filter (baseline b : String) :
    ∀ L : List (String × List (String × Option ℚ)),
      (∀ p ∈ L, p.1 = b → contrib baseline p.1 p.2 = []) →
      (L.flatMap (fun p => contrib baseline p.1 p.2)).filter
          (fun row => row.bench == b) = []
  | [], _ => rfl
  | p :: t, h => by
    have ht : ∀ q ∈ t, q.1 = b → contrib baseline q.1 q.2 = [] :=
      fun q hq => h q (List.mem_cons_of_mem _ hq)
    rw [List.flatMap_cons, List.filter_append,
      flatMap_contrib_bench_filter baseline b t ht, List.append_nil]
    by_cases hpb : p.1 = b
    · rw [h p (List.mem_cons_self _ _) hpb]
      rfl
    · refine List.filter_eq_nil_iff.mpr ?_
      intro row hrow
      have hbench := contrib_bench baseline p.1 p.2 row hrow
      simp [hbench, hpb]

/-- Claim C7 — a benchmark whose record set lacks the baseline
configuration, or whose baseline IPC is null or non-positive, contributes
zero per-benchmark normalized rows (and no error is possible: the pass is a
total function), and the rows of every other benchmark are exactly the
ones obtained after dropping that benchmark's records. -/
theorem c7_missing_baseline (baseline b : String) (recs : List NRec)
    (hfail : ∀ d, lookupA b (bybench recs) = some d →
      ∀ v : ℚ, lookupA baseline d = some (some v) → ¬(0 < v)) :
    (perBenchRows baseline recs).filter (fun row => row.bench == b) = [] ∧
    perBenchRows baseline (recs.filter (fun r => !(r.bench == b))) =
      perBenchRows baseline recs := by
  have hgnil : ∀ p ∈ sortedItems (bybench recs), p.1 = b →
      contrib baseline p.1 p.2 = [] := by
    intro p hp hpb
    have hp2 : p ∈ bybench recs := (List.perm_insertionSort _ _).subset hp
    have hlk : lookupA b (bybench recs) = some p.2 := by
      have hmem : (b, p.2) ∈ bybench recs := by
        rw [← hpb]
        exact hp2
      exact lookupA_of_mem (bybench_fst_nodup recs) hmem
    rw [hpb]
    exact contrib_eq_nil baseline b p.2 (fun v hv => hfail p.2 hlk v hv)
  constructor
  · exact flatMap_contrib_bench_filter baseline b _ hgnil
  · unfold perBenchRows
    rw [bybench_filter, sortedItems_filter b _ (bybench_fst_nodup recs)]
    exact flatMap_filter_contrib baseline b _ hgnil

/-- Benchmark A has no baseline-labeled record; benchmark B does. -/
def recsC7 : List NRec :=
  [⟨"A", "X", some 1⟩, ⟨"B", "latest", some 2⟩, ⟨"B", "Y", some 4⟩]

/-- Witness for C7 at a concrete batch. -/
theorem c7_missing_baseline_witness :
    (perBenchRows "latest" recsC7).filter (fun row => row.bench == "A") = [] ∧
    perBenchRows "latest" (recsC7.filter (fun r => !(r.bench == "A"))) =
      perBenchRows "latest" recsC7 := by
  refine c7_missing_baseline "latest" "A" recsC7 ?_
  intro d hd v hv
  rw [show lookupA "A" (bybench recsC7) = some [("X", some (1 : ℚ))] from
    by decide] at hd
  rw [← Option.some.inj hd] at hv
  rw [show lookupA "latest" [("X", some (1 : ℚ))] = none from by decide] at hv
  exact Option.noConfusion hv

/-! ## C8: per-configuration normalized ratios -/

/-- Claim C8 (amended) — with the baseline present and positive, one row is
emitted per configuration in the benchmark's dict; the ratio is
`ipc / baseline` when the numerator is non-null and nonzero, and null when
the numerator is null or zero (Python falsiness); the baseline's own row
has ratio 1.0. -/
theorem c8_amended_ratio (baseline b : String) (d : List (String × Option ℚ))
    (bv : ℚ) (hb : lookupA baseline d = some (some bv)) (hpos : 0 < bv) :
    contrib baseline b d = d.map (fun p =>
      (⟨b, p.1, match p.2 with
        | none => none
        | some v => if v = 0 then none else some (v / bv)⟩ : NRow)) ∧
    (⟨b, baseline, some 1⟩ : NRow) ∈ contrib baseline b d := by
  have hmap : contrib baseline b d = d.map (fun p =>
      (⟨b, p.1, match p.2 with
        | none => none
        | some v => if v = 0 then none else some (v / bv)⟩ : NRow)) := by
    unfold contrib
    simp only [hb]
    rw [if_neg hpos.ne', if_neg (not_le.mpr hpos)]
  refine ⟨hmap, ?_⟩
  rw [hmap]
  have hmem : (baseline, some bv) ∈ d := lookupA_mem hb
  have h2 : (fun p => (⟨b, p.1, match p.2 with
      | none => none
      | some v => if v = 0 then none else some (v / bv)⟩ : NRow))
        (baseline, some bv) = (⟨b, baseline, some 1⟩ : NRow) := by
    show (⟨b, baseline, if bv = 0 then none else some (bv / bv)⟩ : NRow) = _
    rw [if_neg hpos.ne', div_self hpos.ne']
  rw [← h2]
  exact List.mem_map_of_mem _ hmem

/-- One benchmark: baseline IPC 2.0, and configuration X with IPC 0.0. -/
def recsC8 : List NRec := [⟨"A", "latest", some 2⟩, ⟨"A", "X", some 0⟩]

/-- Claim C8 is false as stated: configuration X's IPC is non-null (0.0),
yet its normalized row carries a null ratio — Python's falsiness of 0.0
suppresses the division. -/
theorem c8_counterexample :
    perBenchRows "latest" recsC8 =
      [⟨"A", "latest", some 1⟩, ⟨"A", "X", none⟩] ∧
    recsC8.map NRec.ipc = [some (2 : ℚ), some (0 : ℚ)] :=
  ⟨by decide, by decide⟩

/-- Witness for the amended C8 at a concrete benchmark dict. -/
theorem c8_amended_ratio_witness :
    contrib "latest" "A" [("latest", some (2 : ℚ)), ("X", some 0)] =
      [⟨"A", "latest", some 1⟩, ⟨"A", "X", none⟩] ∧
    (⟨"A", "latest", some 1⟩ : NRow) ∈
      contrib "latest" "A" [("latest", some (2 : ℚ)), ("X", some 0)] := by
  have h := c8_amended_ratio "latest" "A"
    [("latest", some (2 : ℚ)), ("X", some 0)] 2 (by decide) (by norm_num)
  exact ⟨h.1.trans (by decide), h.2⟩
